import Mathlib

/-!
# Verification of the gradient pre-bake/cache core

Shallow embedding of `lib/GradientCache.js` and `lib/SimpleGradientRenderer.js`
of the conways-arcade repository, together with theorems settling the frozen
claims about them.

Modelling conventions:
* JavaScript numbers are modelled as exact rationals `ℚ`; a value that may be
  `NaN` (a noise sample) is modelled as `Option ℚ` with `none` for `NaN`.
* A JavaScript array read `a[i]`, which yields `undefined` out of bounds, is
  modelled as `Option` (`none` for `undefined`).
* The p5.js dependency (`createGraphics`, `noiseSeed`/`noise`, `lerp`) is an
  external library: the noise field is an abstract parameter (a seed-indexed
  deterministic function, as the spec assumes), `lerp` is its documented
  arithmetic definition, and the pixel buffer of the off-screen graphics is
  the flat RGBA list the prebake loop writes.
-/

/-- An RGB triple `[r, g, b]` of JavaScript numbers. -/
abbrev RGB : Type := ℚ × ℚ × ℚ

/-- The result of a color lookup: the three entries read from the pixel
buffer, each possibly `undefined` (out-of-bounds read). -/
abbrev JSColor : Type := Option ℚ × Option ℚ × Option ℚ

/-- JavaScript `Math.trunc`-style rounding toward zero, used by the
JavaScript `%` operator. -/
def jsTrunc (q : ℚ) : ℤ := if 0 ≤ q then ⌊q⌋ else ⌈q⌉

/-- The JavaScript remainder operator `a % b` on numbers: the remainder has
the sign of the dividend (`a - b * trunc (a / b)`). -/
def jsRem (a b : ℚ) : ℚ := a - b * jsTrunc (a / b)

/-- p5.js `lerp(start, stop, amt) = start + (stop - start) * amt`. -/
def jsLerp (a b t : ℚ) : ℚ := a + (b - a) * t

/-- Componentwise `lerp` of two RGB triples. -/
def jsLerp3 (c1 c2 : RGB) (t : ℚ) : RGB :=
  (jsLerp c1.1 c2.1 t, jsLerp c1.2.1 c2.2.1 t, jsLerp c1.2.2 c2.2.2 t)

/-- JavaScript array indexing `a[i]` with an integer index: `undefined`
(`none`) when the index is negative or past the end. -/
def jsIndex {α : Type} (l : List α) (i : ℤ) : Option α :=
  if 0 ≤ i then l[i.toNat]? else none

/-- A defined RGB triple, viewed as a lookup result. -/
def opt3 (c : RGB) : JSColor := (some c.1, some c.2.1, some c.2.2)

/-- The p5.js surface used by the gradient code: `noise2 seed x y` is the
2-argument Perlin noise after `noiseSeed(seed)` (`none` models a `NaN`
sample), `noise3` the 3-argument time-animated noise of the fallback path. -/
structure P5 where
  noise2 : ℤ → ℚ → ℚ → Option ℚ
  noise3 : ℚ → ℚ → ℚ → Option ℚ

/-- Embedding of `GradientCache.interpolateColor(t)` (GradientCache.js lines 142-172):
NaN falls back to the first palette color; otherwise the noise value is
mapped to `colorIndex = t * (controlPoints - 1)`, the adjacent palette pair
is picked by JavaScript `%` of the floor, and the pair is `lerp`ed at the
fractional part.  An invalid palette access also falls back. -/
def interpolateColor (pal : List RGB) (cps : ℕ) (tq : Option ℚ) : RGB :=
  match tq with
  | none => (pal[0]?).getD (255, 255, 255)
  | some t =>
    let colorIndex : ℚ := t * ((cps : ℚ) - 1)
    let i1 : ℤ := Int.tmod ⌊colorIndex⌋ (pal.length : ℤ)
    let i2 : ℤ := Int.tmod (i1 + 1) (pal.length : ℤ)
    let localT : ℚ := colorIndex - (⌊colorIndex⌋ : ℚ)
    match jsIndex pal i1, jsIndex pal i2 with
    | some c1, some c2 => jsLerp3 c1 c2 localT
    | _, _ => (pal[0]?).getD (255, 255, 255)

/-- The pixel buffer written by the `prebake` double loop
(GradientCache.js lines 106-121): for `y` then `x` over `[0, size)`, the
RGBA bytes of `interpolateColor (noise (x * noiseScale) (y * noiseScale))`
are written at offset `(x + y * size) * 4`, which is exactly this flat list
in iteration order. -/
def bakePixels (noise : ℚ → ℚ → Option ℚ) (size : ℤ) (pal : List RGB)
    (noiseScale : ℚ) (cps : ℕ) : List ℚ :=
  (List.range size.toNat).flatMap fun y =>
    (List.range size.toNat).flatMap fun x =>
      let c := interpolateColor pal cps
        (noise ((x : ℚ) * noiseScale) ((y : ℚ) * noiseScale))
      [c.1, c.2.1, c.2.2, 255]

/-- The state of a `GradientCache` instance: the stored p5 handle and the
fields assigned by the constructor and `prebake`. -/
structure GradientCache where
  p5 : P5
  cacheSize : ℤ
  noiseScale : ℚ
  controlPoints : ℕ
  palette : List RGB
  cachePixels : List ℚ

/-- Embedding of `GradientCache.prebake(seed)` (lines 92-131): re-renders the texture
from the instance fields, replacing `cachePixels`. -/
def GradientCache.prebake (c : GradientCache) (seed : ℤ) : GradientCache :=
  { c with cachePixels :=
      bakePixels (c.p5.noise2 seed) c.cacheSize c.palette c.noiseScale c.controlPoints }

/-- The default palette of Google brand colors.  Modelled from the spec:
`GradientPresets.js` is not among the provided sources; the spec names the
four Google brand colors blue, red, green, yellow, taken here at their RGB
values. -/
def defaultPalette : List RGB :=
  [(66, 133, 244), (234, 67, 53), (52, 168, 83), (251, 188, 4)]

/-- The `GradientCache` constructor (lines 55-79): stores the arguments
(falling back to the default palette), sets `controlPoints = 20`, and
pre-renders via `prebake(noiseSeed)`.  Note the source performs no
validation of `cacheSize` whatsoever. -/
def mkGradientCache (p5 : P5) (cacheSize : ℤ) (paletteOpt : Option (List RGB))
    (noiseScale : ℚ) (noiseSeed : ℤ) : GradientCache :=
  GradientCache.prebake
    { p5 := p5
      cacheSize := cacheSize
      noiseScale := noiseScale
      controlPoints := 20
      palette := paletteOpt.getD defaultPalette
      cachePixels := [] } noiseSeed

/-- The cache coordinate computed by `getColor` for one screen coordinate
(lines 197-202): scale by `0.5`, JavaScript-`%` by the cache size, floor,
then clamp into `[0, cacheSize - 1]`. -/
def GradientCache.cacheCoord (c : GradientCache) (s : ℚ) : ℤ :=
  max 0 (min (c.cacheSize - 1) ⌊jsRem (s * (1 / 2)) ((c.cacheSize : ℤ) : ℚ)⌋)

/-- Embedding of `GradientCache.getColor(screenX, screenY)` (lines 194-211): map both
screen coordinates to cache coordinates, then read the RGB entries at
`(x + y * cacheSize) * 4` from the pixel array. -/
def GradientCache.getColor (c : GradientCache) (screenX screenY : ℚ) : JSColor :=
  let x := c.cacheCoord screenX
  let y := c.cacheCoord screenY
  let index := (x + y * c.cacheSize) * 4
  (jsIndex c.cachePixels index, jsIndex c.cachePixels (index + 1),
    jsIndex c.cachePixels (index + 2))

/-- Embedding of `GradientCache.getAnimatedColor(screenX, screenY, timeOffset)`
(lines 228-231): delegates to `getColor` with the offset added to `y`. -/
def GradientCache.getAnimatedColor (c : GradientCache) (screenX screenY timeOffset : ℚ) :
    JSColor :=
  c.getColor screenX (screenY + timeOffset)

/-- Embedding of `GradientCache.regenerate(newSeed)` (lines 243-246): re-runs the
pre-bake with the new seed. -/
def GradientCache.regenerate (c : GradientCache) (newSeed : ℤ) : GradientCache :=
  c.prebake newSeed

/-- The stored RGB triple of texture pixel `(x, y)`: the three buffer
entries at the offset `(x + y * cacheSize) * 4` used by the prebake loop. -/
def GradientCache.bakedPixel (c : GradientCache) (x y : ℕ) : JSColor :=
  (c.cachePixels[(x + y * c.cacheSize.toNat) * 4]?,
    c.cachePixels[(x + y * c.cacheSize.toNat) * 4 + 1]?,
    c.cachePixels[(x + y * c.cacheSize.toNat) * 4 + 2]?)

/-- One read-only lookup call on a `GradientCache`. -/
inductive CacheCall where
  | lookup (screenX screenY : ℚ)
  | lookupAnimated (screenX screenY timeOffset : ℚ)

/-- Run one lookup call: the returned instance state is built from the
method bodies, which contain no assignment to any field of `this`. -/
def runCall (c : GradientCache) (call : CacheCall) : JSColor × GradientCache :=
  match call with
  | .lookup sx sy => (c.getColor sx sy, c)
  | .lookupAnimated sx sy t => (c.getAnimatedColor sx sy t, c)

/-- The instance state after a sequence of lookup calls. -/
def runCalls (c : GradientCache) (calls : List CacheCall) : GradientCache :=
  calls.foldl (fun acc call => (runCall acc call).2) c

/-- Embedding of `options.cacheSize || 512`: JavaScript `||` takes the default on any
falsy value, i.e. on a missing option and on `0`. -/
def jsOrCacheSize (o : Option ℤ) : ℤ :=
  match o with
  | some s => if s = 0 then 512 else s
  | none => 512

/-- The state of a `SimpleGradientRenderer` instance
(SimpleGradientRenderer.js): the fields assigned by the constructor. -/
structure SimpleGradientRenderer where
  p5 : P5
  animationOffset : ℚ
  palette : List RGB
  controlPoints : ℕ
  useCache : Bool
  gradientCache : Option GradientCache

/-- The `SimpleGradientRenderer` constructor (lines 51-88):
`animationOffset = 0`, the Google palette, `controlPoints = 20`,
`useCache = options.useCache !== undefined ? options.useCache : true`, and,
when caching, a `GradientCache` of size `options.cacheSize || 512` with
noise scale `0.003` and fixed seed `12345`. -/
def mkSimpleGradientRenderer (p5 : P5) (useCacheOpt : Option Bool)
    (cacheSizeOpt : Option ℤ) : SimpleGradientRenderer :=
  let useCache := useCacheOpt.getD true
  { p5 := p5
    animationOffset := 0
    palette := defaultPalette
    controlPoints := 20
    useCache := useCache
    gradientCache :=
      if useCache then
        some (mkGradientCache p5 (jsOrCacheSize cacheSizeOpt) (some defaultPalette)
          (3 / 1000) 12345)
      else none }

/-- Embedding of `SimpleGradientRenderer._getGradientColorRuntime` (lines 130-175): the
fallback path sampling 3-argument noise at scale `0.0002` with the animation
offset as time dimension, then interpolating exactly as the cache does. -/
def SimpleGradientRenderer.getGradientColorRuntime (r : SimpleGradientRenderer)
    (screenX screenY : ℚ) : JSColor :=
  let noiseScale : ℚ := 2 / 10000
  match r.p5.noise3 (screenX * noiseScale) (screenY * noiseScale)
      (r.animationOffset * 2) with
  | none => opt3 ((r.palette[0]?).getD (255, 255, 255))
  | some t =>
    let colorIndex : ℚ := t * ((r.controlPoints : ℚ) - 1)
    let i1 : ℤ := Int.tmod ⌊colorIndex⌋ (r.palette.length : ℤ)
    let i2 : ℤ := Int.tmod (i1 + 1) (r.palette.length : ℤ)
    let localT : ℚ := colorIndex - (⌊colorIndex⌋ : ℚ)
    match jsIndex r.palette i1, jsIndex r.palette i2 with
    | some c1, some c2 => opt3 (jsLerp3 c1 c2 localT)
    | _, _ => opt3 ((r.palette[0]?).getD (255, 255, 255))

/-- Embedding of `SimpleGradientRenderer.getGradientColor(screenX, screenY)`
(lines 107-117): the cache path when `useCache` holds and the cache object
is set, otherwise the runtime path. -/
def SimpleGradientRenderer.getGradientColor (r : SimpleGradientRenderer)
    (screenX screenY : ℚ) : JSColor :=
  match r.useCache, r.gradientCache with
  | true, some gc => gc.getAnimatedColor screenX screenY (r.animationOffset * 1)
  | _, _ => r.getGradientColorRuntime screenX screenY

/-- Embedding of `SimpleGradientRenderer.updateAnimation()` (lines 286-294): the offset
increment is commented out; the body only writes a one-time debug message
and a `window` global, neither of which is renderer state.  The renderer is
left unchanged. -/
def SimpleGradientRenderer.updateAnimation (r : SimpleGradientRenderer) :
    SimpleGradientRenderer := r

/-- Cell state constants of the renderer module. -/
def ALIVE : ℕ := 1

/-- Cell state constants of the renderer module. -/
def DEAD : ℕ := 0

/-- The data of a `GoLEngine` as consumed by `renderMaskedGrid`: dimensions
and the current cell buffer, read as `current[gx][gy]`.  The engine itself
lives in `GoLEngine.js`, outside the provided sources; only this read-only
grid shape (spec section 3, Grid) is needed here. -/
structure GoLEngine where
  cols : ℕ
  rows : ℕ
  current : ℕ → ℕ → ℕ

/-- A filled-rectangle draw command emitted through `fill(r, g, b)` and
`rect(px, py, w, h)`. -/
structure DrawCmd where
  px : ℚ
  py : ℚ
  w : ℚ
  h : ℚ
  color : JSColor

/-- Embedding of `SimpleGradientRenderer.renderMaskedGrid(engine, x, y, cellSize, _)`
(lines 198-224): for each column `gx` and row `gy`, an alive cell emits one
filled rectangle at `(x + gx * cellSize, y + gy * cellSize)` of side
`cellSize`, colored by the gradient sampled at the cell center; dead cells
emit nothing.  The returned list is the emitted commands in loop order. -/
def SimpleGradientRenderer.renderMaskedGrid (r : SimpleGradientRenderer)
    (engine : GoLEngine) (x y cellSize : ℚ) : List DrawCmd :=
  (List.range engine.cols).flatMap fun gx =>
    (List.range engine.rows).flatMap fun gy =>
      if engine.current gx gy = ALIVE then
        let px := x + (gx : ℚ) * cellSize
        let py := y + (gy : ℚ) * cellSize
        [{ px := px, py := py, w := cellSize, h := cellSize,
           color := r.getGradientColor (px + cellSize / 2) (py + cellSize / 2) }]
      else []

/-- All cell coordinates of an engine grid, columns outer, rows inner. -/
def gridCells (engine : GoLEngine) : List (ℕ × ℕ) :=
  (List.range engine.cols).flatMap fun gx =>
    (List.range engine.rows).map fun gy => (gx, gy)

/-- The alive cells of the engine grid, in loop order. -/
def aliveCells (engine : GoLEngine) : List (ℕ × ℕ) :=
  (gridCells engine).filter fun p => decide (engine.current p.1 p.2 = ALIVE)

/-- The single draw command the claim predicts for an alive cell `p`. -/
def cellCmd (r : SimpleGradientRenderer) (x y cellSize : ℚ) (p : ℕ × ℕ) : DrawCmd :=
  { px := x + (p.1 : ℚ) * cellSize
    py := y + (p.2 : ℚ) * cellSize
    w := cellSize
    h := cellSize
    color := r.getGradientColor (x + (p.1 : ℚ) * cellSize + cellSize / 2)
      (y + (p.2 : ℚ) * cellSize + cellSize / 2) }

/-- Modelled from the spec: piecewise-linear interpolation across the
palette "treating the palette as evenly spaced control points, wrapping at
the ends" — the `L = palette.length` colors split `[0,1]` into `L` equal
segments, segment `i` blending color `i` into color `i + 1 mod L` by the
fractional position inside the segment. -/
def paletteEvenWrap (pal : List RGB) (t : ℚ) : RGB :=
  let L := pal.length
  let pos := t * (L : ℚ)
  let i := (⌊pos⌋).toNat
  jsLerp3 (pal.getD (i % L) (255, 255, 255)) (pal.getD ((i + 1) % L) (255, 255, 255))
    (pos - (⌊pos⌋ : ℚ))

/-- The interpolation scheme the source actually implements, stated
independently of the code: `[0,1]` is split into `segs` equal segments
(the source fixes `segs = controlPoints - 1 = 19`), and segment `j` blends
palette color `j mod L` into palette color `(j + 1) mod L` — the palette is
cycled through the segments, not stretched once across `[0,1]`. -/
def paletteCyclic (segs : ℕ) (pal : List RGB) (t : ℚ) : RGB :=
  let pos := t * (segs : ℚ)
  let j := (⌊pos⌋).toNat
  jsLerp3 (pal.getD (j % pal.length) (255, 255, 255))
    (pal.getD ((j + 1) % pal.length) (255, 255, 255)) (pos - (⌊pos⌋ : ℚ))

/-! ## Concrete instances used by counterexamples and witnesses -/

/-- A p5 instance whose seeded noise returns `0` on the column `x = 0` and
`1` elsewhere — a legal deterministic noise function. -/
def cxP5 : P5 :=
  { noise2 := fun _ x _ => if x = 0 then some 0 else some 1
    noise3 := fun _ _ _ => some 0 }

/-- A concrete 2-by-2 cache whose two texture columns hold two different
colors. -/
def tileCache : GradientCache :=
  mkGradientCache cxP5 2 (some [(10, 20, 30), (255, 200, 100)]) 1 0

/-- A three-color palette on which the code's 19-segment cycling and the
spec's evenly spaced stretching of the palette visibly disagree. -/
def pal3 : List RGB := [(1, 2, 3), (121, 2, 3), (255, 2, 3)]

/-- A p5 instance with constant noise. -/
def detP5 : P5 := ⟨fun _ _ _ => some 0, fun _ _ _ => some 0⟩

/-- First of two caches built from identical arguments. -/
def detCacheA : GradientCache := mkGradientCache detP5 1 (some [(1, 2, 3)]) 1 5

/-- Second of two caches built from identical arguments. -/
def detCacheB : GradientCache := mkGradientCache detP5 1 (some [(1, 2, 3)]) 1 5

/-- A p5 instance whose noise is `NaN` everywhere. -/
def nanP5 : P5 := ⟨fun _ _ _ => none, fun _ _ _ => some 0⟩

/-! ## Helper lemmas -/

set_option maxHeartbeats 1000000

theorem toNat0 : Int.toNat 0 = 0 := rfl

theorem toNat1 : Int.toNat 1 = 1 := rfl

theorem toNat2 : Int.toNat 2 = 2 := rfl

theorem toNat4 : Int.toNat 4 = 4 := rfl

theorem toNat5 : Int.toNat 5 = 5 := rfl

theorem toNat6 : Int.toNat 6 = 6 := rfl

theorem tilePal0 : interpolateColor [(10, 20, 30), (255, 200, 100)] 20 (some 0)
    = (10, 20, 30) := by
  have h1 : Int.tmod 0 2 = 0 := by decide
  have h2 : Int.tmod 1 2 = 1 := by decide
  norm_num [interpolateColor, jsIndex, jsLerp3, jsLerp, h1, h2]

theorem tilePal1 : interpolateColor [(10, 20, 30), (255, 200, 100)] 20 (some 1)
    = (255, 200, 100) := by
  have h1 : Int.tmod 19 2 = 1 := by decide
  have h2 : Int.tmod 2 2 = 0 := by decide
  norm_num [interpolateColor, jsIndex, jsLerp3, jsLerp, h1, h2]

theorem tilePixels : tileCache.cachePixels
    = [10, 20, 30, 255, 255, 200, 100, 255, 10, 20, 30, 255, 255, 200, 100, 255] := by
  norm_num [tileCache, cxP5, mkGradientCache, GradientCache.prebake, bakePixels,
    List.range_succ, toNat2, tilePal0, tilePal1]

theorem jsTrunc_of_nonneg {q : ℚ} (h : 0 ≤ q) : jsTrunc q = ⌊q⌋ := if_pos h

theorem jsRem_of_nonneg (a s : ℚ) (ha : 0 ≤ a) (hs : 0 < s) :
    jsRem a s = a - s * ⌊a / s⌋ := by
  unfold jsRem
  rw [jsTrunc_of_nonneg (div_nonneg ha hs.le)]

theorem jsRem_add_mul_int (a s : ℚ) (k : ℤ) (ha : 0 ≤ a) (ha2 : 0 ≤ a + s * k)
    (hs : 0 < s) : jsRem (a + s * k) s = jsRem a s := by
  rw [jsRem_of_nonneg a s ha hs, jsRem_of_nonneg _ s ha2 hs]
  have hne : s ≠ 0 := ne_of_gt hs
  have hdiv : (a + s * k) / s = a / s + (k : ℚ) := by
    field_simp
    ring
  rw [hdiv, Int.floor_add_int]
  push_cast
  ring

theorem cacheCoord_add_two_size_mul (c : GradientCache) (hs : 0 < c.cacheSize)
    (a : ℚ) (m : ℤ) (ha : 0 ≤ a) (ham : 0 ≤ a + 2 * (c.cacheSize : ℚ) * (m : ℚ)) :
    c.cacheCoord (a + 2 * (c.cacheSize : ℚ) * (m : ℚ)) = c.cacheCoord a := by
  have hsq : (0 : ℚ) < ((c.cacheSize : ℤ) : ℚ) := by exact_mod_cast hs
  unfold GradientCache.cacheCoord
  have harg : (a + 2 * (c.cacheSize : ℚ) * (m : ℚ)) * (1 / 2)
      = a * (1 / 2) + ((c.cacheSize : ℤ) : ℚ) * (m : ℚ) := by ring
  rw [harg, jsRem_add_mul_int (a * (1 / 2)) _ m (by linarith) (by linarith) hsq]

theorem flatMap_fixed_length {α β : Type} (f : α → List β) (n : ℕ)
    (hf : ∀ a, (f a).length = n) (l : List α) :
    (l.flatMap f).length = l.length * n := by
  induction l with
  | nil => simp
  | cons a t ih => simp [hf, ih]; ring

theorem flatMap_fixed_getElem {α β : Type} (f : α → List β) (n : ℕ)
    (hf : ∀ a, (f a).length = n) (l : List α) (j i : ℕ) (hj : j < l.length) (hi : i < n) :
    (l.flatMap f)[j * n + i]? = (f l[j])[i]? := by
  induction l generalizing j with
  | nil => simp at hj
  | cons a t ih =>
    cases j with
    | zero =>
      simp only [List.flatMap_cons, Nat.zero_mul, Nat.zero_add]
      rw [List.getElem?_append, if_pos (by rw [hf]; exact hi)]
      simp
    | succ j =>
      simp only [List.flatMap_cons]
      have hidx : (j + 1) * n + i = (f a).length + (j * n + i) := by rw [hf]; ring
      rw [hidx, List.getElem?_append_right (by omega), Nat.add_sub_cancel_left]
      simpa using ih j (by simpa using hj)

theorem bakePixels_inner_length (noise : ℚ → ℚ → Option ℚ) (size : ℤ) (pal : List RGB)
    (ns : ℚ) (cps : ℕ) (b : ℕ) :
    ((List.range size.toNat).flatMap fun a =>
      let c := interpolateColor pal cps (noise ((a : ℚ) * ns) ((b : ℚ) * ns))
      [c.1, c.2.1, c.2.2, (255 : ℚ)]).length = size.toNat * 4 := by
  rw [flatMap_fixed_length
    (fun (a : ℕ) => let c := interpolateColor pal cps (noise ((a : ℚ) * ns) ((b : ℚ) * ns))
                    [c.1, c.2.1, c.2.2, (255 : ℚ)]) 4 (fun _ => rfl) (List.range size.toNat)]
  simp

theorem bakePixels_length (noise : ℚ → ℚ → Option ℚ) (size : ℤ) (pal : List RGB)
    (ns : ℚ) (cps : ℕ) :
    (bakePixels noise size pal ns cps).length = size.toNat * (size.toNat * 4) := by
  unfold bakePixels
  rw [flatMap_fixed_length _ (size.toNat * 4)
    (fun b => bakePixels_inner_length noise size pal ns cps b) (List.range size.toNat)]
  simp

theorem bakePixels_getElem (noise : ℚ → ℚ → Option ℚ) (size : ℤ) (pal : List RGB)
    (ns : ℚ) (cps : ℕ) (x y i : ℕ)
    (hx : x < size.toNat) (hy : y < size.toNat) (hi : i < 4) :
    (bakePixels noise size pal ns cps)[(x + y * size.toNat) * 4 + i]? =
      [(interpolateColor pal cps (noise ((x : ℚ) * ns) ((y : ℚ) * ns))).1,
       (interpolateColor pal cps (noise ((x : ℚ) * ns) ((y : ℚ) * ns))).2.1,
       (interpolateColor pal cps (noise ((x : ℚ) * ns) ((y : ℚ) * ns))).2.2, (255 : ℚ)][i]? := by
  unfold bakePixels
  have hidx : (x + y * size.toNat) * 4 + i = y * (size.toNat * 4) + (x * 4 + i) := by ring
  rw [hidx, flatMap_fixed_getElem _ (size.toNat * 4)
    (fun b => bakePixels_inner_length noise size pal ns cps b) _ y (x * 4 + i)
    (by simpa using hy) (by omega)]
  rw [List.getElem_range]
  rw [flatMap_fixed_getElem
    (fun (a : ℕ) => let c := interpolateColor pal cps (noise ((a : ℚ) * ns) ((y : ℚ) * ns))
                    [c.1, c.2.1, c.2.2, (255 : ℚ)]) 4
    (fun _ => rfl) _ x i (by simpa using hx) hi]
  rw [List.getElem_range]

theorem bakedPixel_eq (p : P5) (size : ℤ) (paletteOpt : Option (List RGB)) (ns : ℚ)
    (seed : ℤ) (x y : ℕ) (hx : x < size.toNat) (hy : y < size.toNat) :
    (mkGradientCache p size paletteOpt ns seed).bakedPixel x y
      = opt3 (interpolateColor (paletteOpt.getD defaultPalette) 20
          (p.noise2 seed ((x : ℚ) * ns) ((y : ℚ) * ns))) := by
  have hpix : (mkGradientCache p size paletteOpt ns seed).cachePixels
      = bakePixels (p.noise2 seed) size (paletteOpt.getD defaultPalette) ns 20 := rfl
  have hsz : (mkGradientCache p size paletteOpt ns seed).cacheSize = size := rfl
  unfold GradientCache.bakedPixel
  rw [hpix, hsz]
  rw [show (x + y * size.toNat) * 4 = (x + y * size.toNat) * 4 + 0 from (Nat.add_zero _).symm]
  rw [bakePixels_getElem _ _ _ _ _ x y 0 hx hy (by omega),
    bakePixels_getElem _ _ _ _ _ x y 1 hx hy (by omega),
    bakePixels_getElem _ _ _ _ _ x y 2 hx hy (by omega)]
  rfl

theorem cacheCoord_bounds (c : GradientCache) (hs : 0 < c.cacheSize) (s : ℚ) :
    0 ≤ c.cacheCoord s ∧ c.cacheCoord s ≤ c.cacheSize - 1 := by
  unfold GradientCache.cacheCoord
  exact ⟨le_max_left 0 _, max_le (by omega) (min_le_left _ _)⟩

theorem jsRem_nonpos_of_neg (a s : ℚ) (ha : a < 0) (hs : 0 < s) : jsRem a s ≤ 0 := by
  unfold jsRem jsTrunc
  have hq : a / s < 0 := div_neg_of_neg_of_pos ha hs
  rw [if_neg (not_le.mpr hq)]
  have hce : a / s ≤ ((⌈a / s⌉ : ℤ) : ℚ) := Int.le_ceil _
  have hmul := (div_le_iff₀ hs).mp hce
  linarith

theorem cacheCoord_neg_clamps_to_zero (c : GradientCache) (hs : 0 < c.cacheSize)
    (s : ℚ) (hneg : s < 0) : c.cacheCoord s = 0 := by
  unfold GradientCache.cacheCoord
  have hsq : (0 : ℚ) < ((c.cacheSize : ℤ) : ℚ) := by exact_mod_cast hs
  have h1 : jsRem (s * (1 / 2)) ((c.cacheSize : ℤ) : ℚ) ≤ 0 :=
    jsRem_nonpos_of_neg _ _ (by linarith) hsq
  have h2 : ⌊jsRem (s * (1 / 2)) ((c.cacheSize : ℤ) : ℚ)⌋ ≤ 0 := by
    have := Int.floor_le_floor (α := ℚ) h1
    simpa using this
  rw [min_eq_right (by omega), max_eq_left h2]

theorem jsIndex_isSome {α : Type} (l : List α) (i : ℤ) (h0 : 0 ≤ i)
    (hl : i < (l.length : ℤ)) : ∃ v, jsIndex l i = some v := by
  unfold jsIndex
  rw [if_pos h0]
  have hb : i.toNat < l.length := (Int.toNat_lt h0).mpr hl
  exact ⟨l.get ⟨i.toNat, hb⟩, List.getElem?_eq_getElem hb⟩

theorem flatMap_ite_singleton {α β : Type} (p : α → Prop) [DecidablePred p] (f : α → β)
    (l : List α) :
    (l.flatMap fun a => if p a then [f a] else []) = (l.filter fun a => decide (p a)).map f := by
  induction l with
  | nil => rfl
  | cons a t ih =>
    by_cases h : p a <;> simp [List.filter_cons, h, ih]

theorem nat_mod_succ_mod (j L : ℕ) : (j % L + 1) % L = (j + 1) % L := by
  conv_rhs => rw [Nat.add_mod]
  rw [Nat.add_mod (j % L) 1]
  simp [Nat.mod_mod_of_dvd]

/-! ## Claim C1 — tiling period of the color lookup -/

/-- C1 is false as stated: the lookup does not tile with period `cacheSize`
in screen coordinates.  For the concrete cache `tileCache` (size 2, built by
the constructor's prebake), `lookup(0 + size * 1, 0)` differs from
`lookup(0, 0)`: the `0.5` scaling applied before the modulo makes the
screen-space period `2 * size`, not `size`. -/
theorem tiling_period_size_counterexample :
    tileCache.getColor (0 + (tileCache.cacheSize : ℚ) * ((1 : ℤ) : ℚ)) 0
      ≠ tileCache.getColor 0 0 := by
  have hs : tileCache.cacheSize = (2 : ℤ) := rfl
  have harg : (0 + (tileCache.cacheSize : ℚ) * ((1 : ℤ) : ℚ)) = 2 := by
    rw [hs]
    norm_num
  rw [harg]
  norm_num [GradientCache.getColor, GradientCache.cacheCoord, jsRem, jsTrunc, jsIndex,
    tilePixels, hs, toNat0, toNat1, toNat2, toNat4, toNat5, toNat6]

/-- C1 (amended): for every cache with positive size, the color lookup tiles
with period `2 * cacheSize` in each screen coordinate, for displacements that
keep the coordinate non-negative (negative coordinates are clamped, not
tiled): `lookup(x + 2 * size * k, y + 2 * size * j) = lookup(x, y)`.  The
coordinate is scaled by `0.5` before the modulo, so the screen-space period
is twice the cache size. -/
theorem tiling_period_double_size (c : GradientCache) (hs : 0 < c.cacheSize)
    (x y : ℚ) (k j : ℤ) (hx : 0 ≤ x) (hy : 0 ≤ y)
    (hxk : 0 ≤ x + 2 * (c.cacheSize : ℚ) * (k : ℚ))
    (hyj : 0 ≤ y + 2 * (c.cacheSize : ℚ) * (j : ℚ)) :
    c.getColor (x + 2 * (c.cacheSize : ℚ) * (k : ℚ)) (y + 2 * (c.cacheSize : ℚ) * (j : ℚ))
      = c.getColor x y := by
  unfold GradientCache.getColor
  rw [cacheCoord_add_two_size_mul c hs x k hx hxk, cacheCoord_add_two_size_mul c hs y j hy hyj]

/-- C1 witness: the amended tiling theorem applied to the concrete cache
`tileCache` at `x = 1`, `k = 1`, `y = 0`, `j = 0`. -/
theorem tiling_period_double_size_witness :
    tileCache.getColor (1 + 2 * ((tileCache.cacheSize : ℤ) : ℚ) * ((1 : ℤ) : ℚ))
      (0 + 2 * ((tileCache.cacheSize : ℤ) : ℚ) * ((0 : ℤ) : ℚ)) = tileCache.getColor 1 0 :=
  tiling_period_double_size tileCache (by decide) 1 0 1 0 (by norm_num) (by norm_num)
    (show (0 : ℚ) ≤ 1 + 2 * ((2 : ℤ) : ℚ) * ((1 : ℤ) : ℚ) by norm_num)
    (show (0 : ℚ) ≤ 0 + 2 * ((2 : ℤ) : ℚ) * ((0 : ℤ) : ℚ) by norm_num)

/-! ## Claim C2 — no failure on non-positive construction size -/

/-- C2 is false as stated: the constructor contains no size validation and
cannot fail; constructing with `cacheSize = 0` yields a cache object whose
size is not positive. -/
theorem size_validation_counterexample :
    ¬ 0 < (mkGradientCache detP5 0 (some [(1, 2, 3)]) 1 5).cacheSize := by decide

/-- C2 (amended): constructing a `GradientCache` with a non-positive texture
size does not fail — there is no `InvalidDimensions` check anywhere in the
constructor — and produces a cache object whose `cacheSize` field is the
given non-positive value and whose pixel buffer is empty (the prebake loops
run zero iterations). -/
theorem mkGradientCache_nonpos_size (p : P5) (size : ℤ) (paletteOpt : Option (List RGB))
    (ns : ℚ) (seed : ℤ) (hs : size ≤ 0) :
    (mkGradientCache p size paletteOpt ns seed).cacheSize = size ∧
    (mkGradientCache p size paletteOpt ns seed).cachePixels = [] := by
  refine ⟨rfl, ?_⟩
  simp [mkGradientCache, GradientCache.prebake, bakePixels, Int.toNat_of_nonpos hs]

/-- C2 witness: the amended theorem applied at size `0`. -/
theorem mkGradientCache_nonpos_size_witness :
    (0 : ℤ) ≤ 0 ∧ ((mkGradientCache detP5 0 (some [(1, 2, 3)]) 1 5).cacheSize = 0 ∧
      (mkGradientCache detP5 0 (some [(1, 2, 3)]) 1 5).cachePixels = []) :=
  ⟨le_refl 0, mkGradientCache_nonpos_size detP5 0 (some [(1, 2, 3)]) 1 5 (le_refl 0)⟩

/-! ## Claim C3 — determinism of the lookup -/

/-- C3: two caches built with identical `(size, palette, noiseScale, seed)`
arguments against the same deterministic noise function return identical
colors at every coordinate; the lookup is a pure function of its two
coordinates with no hidden mutable state. -/
theorem getColor_deterministic (p : P5) (size : ℤ) (paletteOpt : Option (List RGB))
    (ns : ℚ) (seed : ℤ) (c1 c2 : GradientCache)
    (h1 : c1 = mkGradientCache p size paletteOpt ns seed)
    (h2 : c2 = mkGradientCache p size paletteOpt ns seed) (sx sy : ℚ) :
    c1.getColor sx sy = c2.getColor sx sy := by
  subst h1; subst h2; rfl

/-- C3 witness: the determinism theorem applied to the two identically built
caches `detCacheA` and `detCacheB` at a concrete coordinate. -/
theorem getColor_deterministic_witness :
    detCacheA.getColor 10 (-3) = detCacheB.getColor 10 (-3) :=
  getColor_deterministic detP5 1 (some [(1, 2, 3)]) 1 5 detCacheA detCacheB rfl rfl 10 (-3)

/-! ## Claim C4 — animated lookup is a vertical shift -/

/-- C4: for every cache and all inputs, the animated lookup equals the plain
lookup with the time offset added to the vertical coordinate:
`getAnimatedColor(x, y, t) = getColor(x, y + t)`, with no call to the noise
function. -/
theorem getAnimatedColor_eq_shifted_getColor (c : GradientCache) (sx sy t : ℚ) :
    c.getAnimatedColor sx sy t = c.getColor sx (sy + t) := rfl

/-! ## Claim C5 — NaN noise falls back to the first palette color -/

/-- C5: whenever the noise function returns NaN for a pixel inside the
texture, the color baked for that pixel is the first palette color, and
every pixel of the texture still receives a fully defined RGB triple — the
NaN never propagates into the texture. -/
theorem nan_noise_first_palette_color (p : P5) (size : ℤ) (paletteOpt : Option (List RGB))
    (ns : ℚ) (seed : ℤ) (c0 : RGB) (x y : ℕ)
    (h0 : (paletteOpt.getD defaultPalette)[0]? = some c0)
    (hx : x < size.toNat) (hy : y < size.toNat)
    (hn : p.noise2 seed ((x : ℚ) * ns) ((y : ℚ) * ns) = none) :
    (mkGradientCache p size paletteOpt ns seed).bakedPixel x y = opt3 c0 ∧
    ∀ a b : ℕ, a < size.toNat → b < size.toNat →
      ∃ r g bl : ℚ, (mkGradientCache p size paletteOpt ns seed).bakedPixel a b
        = (some r, some g, some bl) := by
  constructor
  · rw [bakedPixel_eq p size paletteOpt ns seed x y hx hy, hn]
    simp [interpolateColor, h0]
  · intro a b ha hb
    refine ⟨(interpolateColor (paletteOpt.getD defaultPalette) 20
        (p.noise2 seed ((a : ℚ) * ns) ((b : ℚ) * ns))).1,
      (interpolateColor (paletteOpt.getD defaultPalette) 20
        (p.noise2 seed ((a : ℚ) * ns) ((b : ℚ) * ns))).2.1,
      (interpolateColor (paletteOpt.getD defaultPalette) 20
        (p.noise2 seed ((a : ℚ) * ns) ((b : ℚ) * ns))).2.2, ?_⟩
    rw [bakedPixel_eq p size paletteOpt ns seed a b ha hb]
    rfl

/-- C5 witness: a cache baked against all-NaN noise stores the first palette
color at pixel `(0, 0)`. -/
theorem nan_noise_first_palette_color_witness :
    ([((7 : ℚ), (8 : ℚ), (9 : ℚ))] : List RGB)[0]? = some (7, 8, 9) ∧
    (mkGradientCache nanP5 1 (some [(7, 8, 9)]) 1 0).bakedPixel 0 0 = opt3 (7, 8, 9) :=
  ⟨rfl, (nan_noise_first_palette_color nanP5 1 (some [(7, 8, 9)]) 1 0 (7, 8, 9) 0 0 rfl
    (by decide) (by decide) rfl).1⟩

/-! ## Claim C6 — shape of the palette interpolation -/

/-- C6 is false as stated: at noise value `t = 1/2` (inside `[0,1]`) on the
three-color palette `pal3`, the code's color mapping does not equal
piecewise-linear interpolation with the palette colors as evenly spaced
control points over `[0,1]` wrapping at the ends: the code blends colors 0
and 1 (segment 9 of its 19 fixed segments, `9 mod 3 = 0`) where the spec
formula blends colors 1 and 2. -/
theorem palette_control_points_counterexample :
    (0 : ℚ) ≤ 1 / 2 ∧ (1 / 2 : ℚ) ≤ 1 ∧
    interpolateColor pal3 20 (some (1 / 2)) ≠ paletteEvenWrap pal3 (1 / 2) := by
  have h1 : Int.tmod 9 3 = 0 := by decide
  have h2 : Int.tmod 1 3 = 1 := by decide
  refine ⟨by norm_num, by norm_num, ?_⟩
  norm_num [pal3, interpolateColor, paletteEvenWrap, jsIndex, jsLerp3, jsLerp, h1, h2,
    toNat0, toNat1, List.getD, Int.fract]

/-- C6 (amended): for every noise value `t` in `[0,1]` and non-empty
palette, the color mapping is piecewise-linear over the
`controlPoints - 1 = 19` evenly spaced segments of `[0,1]`, with segment `j`
interpolating from palette color `j mod L` to palette color `(j+1) mod L`
(the palette is cycled through the segments, wrapping, rather than stretched
once across `[0,1]`), by `t`'s fractional position within the segment. -/
theorem interpolateColor_is_cyclic (pal : List RGB) (t : ℚ) (hpal : pal ≠ [])
    (ht0 : 0 ≤ t) (ht1 : t ≤ 1) :
    interpolateColor pal 20 (some t) = paletteCyclic 19 pal t := by
  have hL : 0 < pal.length := List.length_pos.mpr hpal
  have hpos : (0 : ℚ) ≤ t * ((19 : ℕ) : ℚ) := by positivity
  have hfl : 0 ≤ ⌊t * ((19 : ℕ) : ℚ)⌋ := Int.floor_nonneg.mpr hpos
  obtain ⟨j, hjs⟩ : ∃ j : ℕ, ⌊t * ((19 : ℕ) : ℚ)⌋ = (j : ℤ) :=
    ⟨_, (Int.toNat_of_nonneg hfl).symm⟩
  have h20 : ((20 : ℕ) : ℚ) - 1 = ((19 : ℕ) : ℚ) := by norm_num
  have hmod1 : Int.tmod (j : ℤ) (pal.length : ℤ) = ((j % pal.length : ℕ) : ℤ) :=
    (Int.ofNat_tmod j pal.length).symm
  have hmod2 : Int.tmod (((j % pal.length : ℕ) : ℤ) + 1) (pal.length : ℤ)
      = (((j + 1) % pal.length : ℕ) : ℤ) := by
    have hcast : ((j % pal.length : ℕ) : ℤ) + 1 = (((j % pal.length) + 1 : ℕ) : ℤ) := by
      push_cast
      ring
    rw [hcast, ← Int.ofNat_tmod, nat_mod_succ_mod]
  have hlt1 : j % pal.length < pal.length := Nat.mod_lt j hL
  have hlt2 : (j + 1) % pal.length < pal.length := Nat.mod_lt _ hL
  have hidx1 : jsIndex pal ((j % pal.length : ℕ) : ℤ) = some (pal.get ⟨j % pal.length, hlt1⟩) := by
    unfold jsIndex
    rw [if_pos (by positivity), Int.toNat_natCast]
    exact List.getElem?_eq_getElem hlt1
  have hidx2 : jsIndex pal (((j + 1) % pal.length : ℕ) : ℤ)
      = some (pal.get ⟨(j + 1) % pal.length, hlt2⟩) := by
    unfold jsIndex
    rw [if_pos (by positivity), Int.toNat_natCast]
    exact List.getElem?_eq_getElem hlt2
  unfold interpolateColor paletteCyclic
  simp only [h20, hjs, hmod1, hmod2, hidx1, hidx2, Int.toNat_natCast]
  rw [List.getD_eq_getElem?_getD, List.getD_eq_getElem?_getD,
    List.getElem?_eq_getElem hlt1, List.getElem?_eq_getElem hlt2]
  rfl

/-- C6 witness: the amended interpolation theorem applied to the concrete
palette `pal3` at `t = 1/2`. -/
theorem interpolateColor_is_cyclic_witness :
    pal3 ≠ [] ∧ (0 : ℚ) ≤ 1 / 2 ∧ (1 / 2 : ℚ) ≤ 1 ∧
    interpolateColor pal3 20 (some (1 / 2)) = paletteCyclic 19 pal3 (1 / 2) :=
  ⟨by simp [pal3], by norm_num, by norm_num,
   interpolateColor_is_cyclic pal3 (1 / 2) (by simp [pal3]) (by norm_num) (by norm_num)⟩

/-! ## Claim C7 — texture immutable except via regenerate -/

/-- C7: any sequence of `lookup` / `lookupAnimated` calls leaves the cache
instance — its pixel buffer, size, palette and noise-scale fields — entirely
unchanged, and `regenerate(newSeed)` fully replaces the texture with a fresh
pre-bake from the instance's fields under the new seed. -/
theorem lookups_pure_and_regenerate_rebakes (c : GradientCache) (calls : List CacheCall)
    (newSeed : ℤ) :
    runCalls c calls = c ∧
    c.regenerate newSeed = { c with
      cachePixels := bakePixels (c.p5.noise2 newSeed) c.cacheSize c.palette
        c.noiseScale c.controlPoints } := by
  refine ⟨?_, rfl⟩
  induction calls with
  | nil => rfl
  | cons hd tl ih =>
      have h2 : (runCall c hd).2 = c := by cases hd <;> rfl
      calc runCalls c (hd :: tl) = runCalls ((runCall c hd).2) tl := rfl
        _ = runCalls c tl := by rw [h2]
        _ = c := ih

/-! ## Claim C8 — one rectangle per alive cell -/

/-- C8: the compositor's grid render emits exactly the list of one
filled-rectangle command per alive cell of the engine's current buffer, in
loop order, and none for dead cells: each alive cell `(gx, gy)` yields the
rectangle at `(x + gx * cellSize, y + gy * cellSize)` of side `cellSize`
colored by the gradient sampled at the cell's center, and the number of
commands equals the number of alive cells. -/
theorem renderMaskedGrid_one_rect_per_alive_cell (r : SimpleGradientRenderer) (e : GoLEngine)
    (x y cs : ℚ) :
    r.renderMaskedGrid e x y cs = (aliveCells e).map (cellCmd r x y cs) ∧
    (r.renderMaskedGrid e x y cs).length = (aliveCells e).length := by
  have hmain : r.renderMaskedGrid e x y cs = (aliveCells e).map (cellCmd r x y cs) := by
    unfold SimpleGradientRenderer.renderMaskedGrid aliveCells gridCells
    rw [List.filter_flatMap, List.map_flatMap]
    congr 1
    funext gx
    rw [List.filter_map, List.map_map,
        flatMap_ite_singleton (fun gy => e.current gx gy = ALIVE) _ (List.range e.rows)]
    rfl
  exact ⟨hmain, by rw [hmain, List.length_map]⟩

/-! ## Claim C9 — the animation offset never advances -/

/-- C9: `updateAnimation` leaves the renderer unchanged — its increment is
commented out — so the `animationOffset` field stays at its construction value `0`
and `getGradientColor` returns the same color for the same coordinates after
any number of `updateAnimation` calls: the gradient never scrolls. -/
theorem updateAnimation_leaves_renderer_fixed (p : P5) (useCacheOpt : Option Bool)
    (cacheSizeOpt : Option ℤ) (n : ℕ) (sx sy : ℚ) :
    (mkSimpleGradientRenderer p useCacheOpt cacheSizeOpt).animationOffset = 0 ∧
    SimpleGradientRenderer.updateAnimation^[n] (mkSimpleGradientRenderer p useCacheOpt cacheSizeOpt)
      = mkSimpleGradientRenderer p useCacheOpt cacheSizeOpt ∧
    (SimpleGradientRenderer.updateAnimation^[n]
        (mkSimpleGradientRenderer p useCacheOpt cacheSizeOpt)).getGradientColor sx sy
      = (mkSimpleGradientRenderer p useCacheOpt cacheSizeOpt).getGradientColor sx sy := by
  have hiter := Function.iterate_fixed
    (f := SimpleGradientRenderer.updateAnimation)
    (x := mkSimpleGradientRenderer p useCacheOpt cacheSizeOpt) rfl n
  exact ⟨rfl, hiter, by rw [hiter]⟩

/-! ## Claim C10 — lookup reads stay in bounds -/

/-- C10: for every cache built by the constructor with positive size and any
rational screen coordinates, the computed cache indices are clamped into
`[0, size - 1]` in both axes, every negative screen coordinate clamps to
index `0` (clamping, not wrapping), the pixel-buffer read is in bounds, and
the lookup returns a triple of three defined values. -/
theorem getColor_reads_in_bounds (p : P5) (size : ℤ) (paletteOpt : Option (List RGB))
    (ns : ℚ) (seed : ℤ) (c : GradientCache)
    (hc : c = mkGradientCache p size paletteOpt ns seed) (hs : 0 < size) (sx sy : ℚ) :
    (0 ≤ c.cacheCoord sx ∧ c.cacheCoord sx ≤ size - 1
      ∧ 0 ≤ c.cacheCoord sy ∧ c.cacheCoord sy ≤ size - 1)
    ∧ (sx < 0 → c.cacheCoord sx = 0) ∧ (sy < 0 → c.cacheCoord sy = 0)
    ∧ (c.cacheCoord sx + c.cacheCoord sy * size) * 4 + 2 < (c.cachePixels.length : ℤ)
    ∧ ∃ r g b : ℚ, c.getColor sx sy = (some r, some g, some b) := by
  have hsz : c.cacheSize = size := by subst hc; rfl
  have hsc : 0 < c.cacheSize := by omega
  obtain ⟨hx0, hx1⟩ := cacheCoord_bounds c hsc sx
  obtain ⟨hy0, hy1⟩ := cacheCoord_bounds c hsc sy
  have hlen : (c.cachePixels.length : ℤ) = size * (size * 4) := by
    rw [hc]
    have hb : (mkGradientCache p size paletteOpt ns seed).cachePixels
        = bakePixels (p.noise2 seed) size (paletteOpt.getD defaultPalette) ns 20 := rfl
    rw [hb, bakePixels_length]
    push_cast [Int.toNat_of_nonneg hs.le]
    ring
  have hkey : ∀ u v : ℤ, 0 ≤ u → u ≤ size - 1 → 0 ≤ v → v ≤ size - 1 →
      (u + v * size) * 4 + 2 < size * (size * 4) := by
    intro u v hu0 hu1 hv0 hv1
    nlinarith [mul_le_mul_of_nonneg_right hv1 (by omega : (0 : ℤ) ≤ size)]
  have hidx := hkey _ _ hx0 (by omega) hy0 (by omega)
  refine ⟨⟨hx0, by omega, hy0, by omega⟩,
    fun hneg => cacheCoord_neg_clamps_to_zero c hsc sx hneg,
    fun hneg => cacheCoord_neg_clamps_to_zero c hsc sy hneg,
    by rw [hlen]; omega, ?_⟩
  have h0i : 0 ≤ (c.cacheCoord sx + c.cacheCoord sy * c.cacheSize) * 4 := by
    have hnn : 0 ≤ c.cacheCoord sy * c.cacheSize := mul_nonneg hy0 hsc.le
    omega
  have hval : (c.cacheCoord sx + c.cacheCoord sy * c.cacheSize) * 4 + 2
      < (c.cachePixels.length : ℤ) := by
    rw [hlen, hsz]
    exact hidx
  obtain ⟨r, hr⟩ := jsIndex_isSome c.cachePixels
    ((c.cacheCoord sx + c.cacheCoord sy * c.cacheSize) * 4) h0i (by omega)
  obtain ⟨g, hg⟩ := jsIndex_isSome c.cachePixels
    ((c.cacheCoord sx + c.cacheCoord sy * c.cacheSize) * 4 + 1) (by omega) (by omega)
  obtain ⟨b, hb⟩ := jsIndex_isSome c.cachePixels
    ((c.cacheCoord sx + c.cacheCoord sy * c.cacheSize) * 4 + 2) (by omega) (by omega)
  refine ⟨r, g, b, ?_⟩
  simp only [GradientCache.getColor]
  rw [hr, hg, hb]

/-- C10 witness: the bounds theorem applied to the concrete cache
`detCacheA` (size 1) at a negative x coordinate. -/
theorem getColor_reads_in_bounds_witness :
    (0 ≤ detCacheA.cacheCoord (-5) ∧ detCacheA.cacheCoord (-5) ≤ 1 - 1
      ∧ 0 ≤ detCacheA.cacheCoord 3 ∧ detCacheA.cacheCoord 3 ≤ 1 - 1)
    ∧ ((-5 : ℚ) < 0 → detCacheA.cacheCoord (-5) = 0)
    ∧ ((3 : ℚ) < 0 → detCacheA.cacheCoord 3 = 0)
    ∧ (detCacheA.cacheCoord (-5) + detCacheA.cacheCoord 3 * 1) * 4 + 2
        < (detCacheA.cachePixels.length : ℤ)
    ∧ ∃ r g b : ℚ, detCacheA.getColor (-5) 3 = (some r, some g, some b) :=
  getColor_reads_in_bounds detP5 1 (some [(1, 2, 3)]) 1 5 detCacheA rfl (by decide) (-5) 3
